import Mathlib

/-!
Shallow embedding of `src/serial_monitor.py`, a 47-line Python script that
opens `/dev/ttyUSB0` at 115200 baud with a 1-second read timeout, clears the
input buffer, then for 20 wall-clock seconds polls `in_waiting`, reads lines,
decodes them with `errors='replace'`, strips trailing whitespace, and prints
non-empty lines prefixed with a `[%H:%M:%S]` timestamp.  Exceptions are
handled by an inner `except Exception` around the per-line read and a
top-level `try/except` for `serial.SerialException`, `KeyboardInterrupt`
and `Exception`.

Time is modelled in integer microseconds.  External nondeterminism (outcome
of the open call, what the serial device delivers at each loop iteration,
interrupts and other exceptions) is supplied by an `Env`.  The interpreter
`run` is deterministic given an `Env` and produces the ordered trace of
observable effects (prints, port open, buffer reset, close calls), the final
exit path, the exit code, and whether the handle was still open at exit.
-/

namespace SerialMonitor

/-- Fixed constants from the script: `PORT = '/dev/ttyUSB0'`. -/
def PORT : String := "/dev/ttyUSB0"

/-- The constant `BAUDRATE = 115200`. -/
def BAUDRATE : Nat := 115200

/-- The 20-second loop deadline (`while time.time() - start_time < 20`), in microseconds. -/
def deadlineUs : Nat := 20000000

/-- The idle sleep `time.sleep(0.01)`, in microseconds. -/
def sleepUs : Nat := 10000

/-- The serial read timeout `timeout=1`, in microseconds. -/
def readTimeoutUs : Nat := 1000000

/-! ### Python `str.rstrip` on ASCII whitespace -/

/-- Whitespace characters removed by Python `str.rstrip()` (modelled on the
ASCII whitespace set: space, tab, newline, carriage return, vertical tab,
form feed). -/
def isPySpace (c : Char) : Bool :=
  c = ' ' || c = '\t' || c = '\n' || c = '\r' || c = '\x0b' || c = '\x0c'

/-- Python `line.rstrip()`: drop trailing whitespace. -/
def pyRstrip (l : List Char) : List Char :=
  (l.reverse.dropWhile isPySpace).reverse

/-! ### `time.strftime('[%H:%M:%S]')` -/

/-- Two-digit zero-padded decimal rendering, as `%H`, `%M`, `%S` produce for
values below 100. -/
def pad2 (n : Nat) : List Char :=
  [Nat.digitChar (n / 10), Nat.digitChar (n % 10)]

/-- Python `time.strftime('[%H:%M:%S]')` at an absolute local time given in
microseconds since local midnight-epoch: whole seconds, hour-of-day,
minutes, seconds, each zero-padded to two digits. -/
def fmtTime (tUs : Nat) : List Char :=
  let sod := (tUs / 1000000) % 86400
  '[' :: (pad2 (sod / 3600) ++ ':' :: pad2 ((sod % 3600) / 60) ++ ':' :: pad2 (sod % 60) ++ [']'])

/-- Value of a decimal digit character. -/
def digitVal (c : Char) : Nat := c.toNat - 48

/-- Strict parser for the `[HH:MM:SS]` shape produced by `fmtTime`; returns
the encoded second-of-day.  Used to state that the printed timestamp really
carries the wall-clock time in whole seconds. -/
def parseHMS : List Char → Option Nat
  | ['[', h1, h2, ':', m1, m2, ':', s1, s2, ']'] =>
    if h1.isDigit && h2.isDigit && m1.isDigit && m2.isDigit && s1.isDigit && s2.isDigit then
      some ((digitVal h1 * 10 + digitVal h2) * 3600 +
            (digitVal m1 * 10 + digitVal m2) * 60 +
            (digitVal s1 * 10 + digitVal s2))
    else none
  | _ => none

/-! ### `bytes.decode('utf-8', errors='replace')`

CPython's UTF-8 decoder with `errors='replace'` substitutes one U+FFFD for
each maximal subpart of an ill-formed subsequence (the W3C/Unicode
"best practice" CPython implements): a valid prefix of a multi-byte sequence
that cannot be completed is consumed as a single replacement, and decoding
resumes at the first offending byte. -/

/-- The replacement character U+FFFD. -/
def replChar : Char := Char.ofNat 0xFFFD

/-- Is `b` a UTF-8 continuation byte (`0x80..0xBF`)? -/
def isCont (b : Nat) : Bool := 0x80 ≤ b && b ≤ 0xBF

/-- One step of the UTF-8 decoder at lead byte `b` followed by `rest`:
`(some c, n)` when a well-formed `n`-byte sequence starts here and decodes to
`c`; `(none, n)` when the maximal subpart of an ill-formed sequence here has
`n` bytes (consumed as a single replacement).  Lead-byte ranges and the
constrained second-byte ranges for `E0`, `ED`, `F0`, `F4` follow RFC 3629 as
CPython checks them. -/
def utf8Head (b : Nat) (rest : List Nat) : Option Char × Nat :=
  if b < 0x80 then (some (Char.ofNat b), 1)
  else if 0xC2 ≤ b && b ≤ 0xDF then
    match rest with
    | b1 :: _ =>
      if isCont b1 then (some (Char.ofNat ((b - 0xC0) * 0x40 + (b1 - 0x80))), 2)
      else (none, 1)
    | [] => (none, 1)
  else if 0xE0 ≤ b && b ≤ 0xEF then
    match rest with
    | b1 :: r1 =>
      if (if b = 0xE0 then 0xA0 else 0x80) ≤ b1 && b1 ≤ (if b = 0xED then 0x9F else 0xBF) then
        match r1 with
        | b2 :: _ =>
          if isCont b2 then
            (some (Char.ofNat ((b - 0xE0) * 0x1000 + (b1 - 0x80) * 0x40 + (b2 - 0x80))), 3)
          else (none, 2)
        | [] => (none, 2)
      else (none, 1)
    | [] => (none, 1)
  else if 0xF0 ≤ b && b ≤ 0xF4 then
    match rest with
    | b1 :: r1 =>
      if (if b = 0xF0 then 0x90 else 0x80) ≤ b1 && b1 ≤ (if b = 0xF4 then 0x8F else 0xBF) then
        match r1 with
        | b2 :: r2 =>
          if isCont b2 then
            match r2 with
            | b3 :: _ =>
              if isCont b3 then
                (some (Char.ofNat ((b - 0xF0) * 0x40000 + (b1 - 0x80) * 0x1000 +
                                   (b2 - 0x80) * 0x40 + (b3 - 0x80))), 4)
              else (none, 3)
            | [] => (none, 3)
          else (none, 2)
        | [] => (none, 2)
      else (none, 1)
    | [] => (none, 1)
  else (none, 1)

/-- Fuelled worker for `errors='replace'` decoding.  After consuming the
`n`-byte head sequence, decoding resumes at `rest.drop (n - 1)`. -/
def utf8DecodeReplaceGo : Nat → List Nat → List Char
  | 0, _ => []
  | _, [] => []
  | fuel + 1, b :: rest =>
    match utf8Head b rest with
    | (some c, n) => c :: utf8DecodeReplaceGo fuel (rest.drop (n - 1))
    | (none, n) => replChar :: utf8DecodeReplaceGo fuel (rest.drop (n - 1))

/-- Python `bytes.decode('utf-8', errors='replace')`: total, never raises; each
maximal ill-formed subpart becomes one U+FFFD. -/
def utf8DecodeReplace (bs : List Nat) : List Char :=
  utf8DecodeReplaceGo bs.length bs

/-- Fuelled worker for strict decoding. -/
def utf8DecodeStrictGo : Nat → List Nat → Option (List Char)
  | 0, _ => some []
  | _, [] => some []
  | fuel + 1, b :: rest =>
    match utf8Head b rest with
    | (some c, n) => (utf8DecodeStrictGo fuel (rest.drop (n - 1))).map (fun cs => c :: cs)
    | (none, _) => none

/-- Strict UTF-8 decoding (`errors='strict'`): `none` exactly when the input
contains an ill-formed subsequence. -/
def utf8DecodeStrict (bs : List Nat) : Option (List Char) :=
  utf8DecodeStrictGo bs.length bs

/-- Fuel above the list length is irrelevant for the replace decoder. -/
theorem utf8DecodeReplaceGo_irrel :
    ∀ (f g : Nat) (bs : List Nat), bs.length ≤ f → bs.length ≤ g →
      utf8DecodeReplaceGo f bs = utf8DecodeReplaceGo g bs := by
  intro f
  induction f with
  | zero =>
    intro g bs hf _
    have : bs = [] := List.length_eq_zero.mp (Nat.le_zero.mp hf)
    subst this
    cases g <;> rfl
  | succ f ih =>
    intro g bs hf hg
    cases bs with
    | nil => cases g <;> rfl
    | cons b rest =>
      cases g with
      | zero => simp at hg
      | succ g =>
        simp only [utf8DecodeReplaceGo]
        have hdrop : ∀ n, (rest.drop n).length ≤ rest.length := by
          intro n; simp [List.length_drop]
        have hlen : rest.length ≤ f := by simp at hf; omega
        have hleng : rest.length ≤ g := by simp at hg; omega
        cases hu : utf8Head b rest with
        | mk oc n =>
          cases oc <;>
            simp only [] <;>
            rw [ih g (rest.drop (n - 1)) (le_trans (hdrop _) hlen) (le_trans (hdrop _) hleng)]

/-- Fuel above the list length is irrelevant for the strict decoder. -/
theorem utf8DecodeStrictGo_irrel :
    ∀ (f g : Nat) (bs : List Nat), bs.length ≤ f → bs.length ≤ g →
      utf8DecodeStrictGo f bs = utf8DecodeStrictGo g bs := by
  intro f
  induction f with
  | zero =>
    intro g bs hf _
    have : bs = [] := List.length_eq_zero.mp (Nat.le_zero.mp hf)
    subst this
    cases g <;> rfl
  | succ f ih =>
    intro g bs hf hg
    cases bs with
    | nil => cases g <;> rfl
    | cons b rest =>
      cases g with
      | zero => simp at hg
      | succ g =>
        simp only [utf8DecodeStrictGo]
        have hdrop : ∀ n, (rest.drop n).length ≤ rest.length := by
          intro n; simp [List.length_drop]
        have hlen : rest.length ≤ f := by simp at hf; omega
        have hleng : rest.length ≤ g := by simp at hg; omega
        cases hu : utf8Head b rest with
        | mk oc n =>
          cases oc <;>
            simp only [] <;>
            rw [ih g (rest.drop (n - 1)) (le_trans (hdrop _) hlen) (le_trans (hdrop _) hleng)]

/-- Unfolding law for `utf8DecodeReplace` at a nonempty input. -/
theorem utf8DecodeReplace_cons (b : Nat) (rest : List Nat) :
    utf8DecodeReplace (b :: rest) =
      match utf8Head b rest with
      | (some c, n) => c :: utf8DecodeReplace (rest.drop (n - 1))
      | (none, n) => replChar :: utf8DecodeReplace (rest.drop (n - 1)) := by
  have hdrop : ∀ n, (rest.drop n).length ≤ rest.length := by
    intro n; simp [List.length_drop]
  show utf8DecodeReplaceGo (rest.length + 1) (b :: rest) = _
  simp only [utf8DecodeReplaceGo]
  cases hu : utf8Head b rest with
  | mk oc n =>
    cases oc <;> simp only [] <;>
      rw [utf8DecodeReplaceGo_irrel rest.length (rest.drop (n - 1)).length
            (rest.drop (n - 1)) (hdrop _) le_rfl] <;> rfl

/-- Unfolding law for `utf8DecodeStrict` at a nonempty input. -/
theorem utf8DecodeStrict_cons (b : Nat) (rest : List Nat) :
    utf8DecodeStrict (b :: rest) =
      match utf8Head b rest with
      | (some c, n) => (utf8DecodeStrict (rest.drop (n - 1))).map (fun cs => c :: cs)
      | (none, _) => none := by
  have hdrop : ∀ n, (rest.drop n).length ≤ rest.length := by
    intro n; simp [List.length_drop]
  show utf8DecodeStrictGo (rest.length + 1) (b :: rest) = _
  simp only [utf8DecodeStrictGo]
  cases hu : utf8Head b rest with
  | mk oc n =>
    cases oc <;> simp only [] <;>
      rw [utf8DecodeStrictGo_irrel rest.length (rest.drop (n - 1)).length
            (rest.drop (n - 1)) (hdrop _) le_rfl] <;> rfl

/-- When strict decoding succeeds, replace decoding returns the same text. -/
theorem utf8DecodeReplace_of_strict :
    ∀ (k : Nat) (bs : List Nat), bs.length ≤ k → ∀ {cs : List Char},
      utf8DecodeStrict bs = some cs → utf8DecodeReplace bs = cs := by
  intro k
  induction k with
  | zero =>
    intro bs hk cs h
    have : bs = [] := List.length_eq_zero.mp (Nat.le_zero.mp hk)
    subst this
    simp [utf8DecodeStrict, utf8DecodeStrictGo] at h
    simp [utf8DecodeReplace, utf8DecodeReplaceGo, h]
  | succ k ih =>
    intro bs hk cs h
    cases bs with
    | nil =>
      simp [utf8DecodeStrict, utf8DecodeStrictGo] at h
      simp [utf8DecodeReplace, utf8DecodeReplaceGo, h]
    | cons b rest =>
      rw [utf8DecodeStrict_cons] at h
      rw [utf8DecodeReplace_cons]
      cases hu : utf8Head b rest with
      | mk oc n =>
        cases oc with
        | none => rw [hu] at h; simp at h
        | some c =>
          rw [hu] at h
          simp only [Option.map_eq_some'] at h
          obtain ⟨cs', hcs', rfl⟩ := h
          have hlen : (rest.drop (n - 1)).length ≤ k := by
            simp at hk
            simp [List.length_drop]
            omega
          dsimp only
          rw [ih (rest.drop (n - 1)) hlen hcs']

/-- When strict decoding fails, the replace decoding contains U+FFFD. -/
theorem replChar_mem_of_strict_none :
    ∀ (k : Nat) (bs : List Nat), bs.length ≤ k →
      utf8DecodeStrict bs = none → replChar ∈ utf8DecodeReplace bs := by
  intro k
  induction k with
  | zero =>
    intro bs hk h
    have : bs = [] := List.length_eq_zero.mp (Nat.le_zero.mp hk)
    subst this
    simp [utf8DecodeStrict, utf8DecodeStrictGo] at h
  | succ k ih =>
    intro bs hk h
    cases bs with
    | nil => simp [utf8DecodeStrict, utf8DecodeStrictGo] at h
    | cons b rest =>
      rw [utf8DecodeStrict_cons] at h
      rw [utf8DecodeReplace_cons]
      cases hu : utf8Head b rest with
      | mk oc n =>
        cases oc with
        | none => simp
        | some c =>
          rw [hu] at h
          simp only [Option.map_eq_none'] at h
          have hlen : (rest.drop (n - 1)).length ≤ k := by
            simp at hk
            simp [List.length_drop]
            omega
          dsimp only
          exact List.mem_cons_of_mem _ (ih (rest.drop (n - 1)) hlen h)

/-! ### Printed text

Each printed line is modelled as the `List Char` passed to `print`. -/

/-- The four banner lines printed after a successful open (lines 14-17). -/
def bannerLines : List (List Char) :=
  ["=== ESP32 Serial Monitor ===".data,
   "Port: /dev/ttyUSB0, Baud: 115200".data,
   "Press Ctrl+C to exit".data,
   List.replicate 50 '=']

/-- Line 41: `print(f"Error opening serial port: {e}")`. -/
def errOpenMsg (e : List Char) : List Char := "Error opening serial port: ".data ++ e

/-- Line 33: `print(f"Error reading line: {e}")`. -/
def errReadMsg (e : List Char) : List Char := "Error reading line: ".data ++ e

/-- Line 47: `print(f"Unexpected error: {e}")`. -/
def errUnexpectedMsg (e : List Char) : List Char := "Unexpected error: ".data ++ e

/-- Line 43: `print("\nMonitoring stopped by user.")`. -/
def stoppedMsg : List Char := "\nMonitoring stopped by user.".data

/-- Line 38: `print("\nMonitoring complete.")`. -/
def completeMsg : List Char := "\nMonitoring complete.".data

/-! ### The environment: external nondeterminism -/

/-- What the outside world does during one iteration of the polling loop.
Durations `dt` are extra microseconds beyond the model's minimum of one
microsecond per iteration (real iterations take strictly positive time).
  * `noData dt`: `ser.in_waiting == 0`; the body sleeps 10 ms.
  * `data bs dt`: `ser.in_waiting > 0` and `ser.readline()` returns the
    bytes `bs` after `dt` microseconds.
  * `readErr msg dt`: `ser.readline()` raises an `Exception` rendering as
    `msg`; caught by the inner `except Exception` (line 32).
  * `raiseSerial msg`: the `ser.in_waiting` access (line 25, outside the
    inner `try`) raises `serial.SerialException`.
  * `raiseOther msg`: line 25 raises some other `Exception`.
  * `interrupt`: a `KeyboardInterrupt` is delivered during this iteration
    (not caught by the inner handler, which catches only `Exception`). -/
inductive IterIn where
  | noData (dt : Nat)
  | data (bs : List Nat) (dt : Nat)
  | readErr (msg : List Char) (dt : Nat)
  | raiseSerial (msg : List Char)
  | raiseOther (msg : List Char)
  | interrupt

/-- Outcome of `serial.Serial(PORT, BAUDRATE, timeout=1)` (line 12):
success, a `serial.SerialException`, a `KeyboardInterrupt` delivered before
`ser` is bound, or some other `Exception` raised before `ser` is bound. -/
inductive OpenPhase where
  | ok
  | fail (msg : List Char)
  | kbEarly
  | otherFail (msg : List Char)

/-- The external world for one execution: the outcome of the open call, the
content of the device-side input buffer at startup (stale lines), the local
wall-clock time (microseconds since local midnight-epoch) when `start_time`
is recorded, and the per-iteration events. -/
structure Env where
  openPhase : OpenPhase
  stale : List (List Nat)
  startTime : Nat
  iter : Nat → IterIn

/-- Which top-level path the program ended on: the normal fall-through after
the loop, the `serial.SerialException` handler (line 40), the
`KeyboardInterrupt` handler (line 42), or the `Exception` handler (line 46). -/
inductive ExitPath where
  | completed
  | serialExc
  | interrupted
  | unexpected
deriving DecidableEq

/-- Observable effects, in program order. `closeCall b` records an actual
invocation of `ser.close()` together with the value of `ser.is_open` at the
moment of the call. -/
inductive Ev where
  | print (l : List Char)
  | openPort
  | resetBuf
  | startClock
  | closeCall (isOpen : Bool)
deriving DecidableEq

/-- What the `while` loop produced: the lines it printed in order, how it
ended (fell through the guard, or an exception escaped), the message of the
escaping exception if any, and `time.time() - start_time` in microseconds
when the loop ended. -/
structure LoopOut where
  evs : List (List Char)
  path : ExitPath
  emsg : List Char
  endElapsed : Nat
deriving DecidableEq

/-- Line 20: `ser.reset_input_buffer()` discards everything buffered. -/
def resetInputBuffer (_buffered : List (List Nat)) : List (List Nat) := []

/-- The polling loop, lines 24-35.  `fuel` bounds the number of iterations;
since every iteration advances wall-clock time by at least one microsecond,
`deadlineUs` iterations always suffice, and `run` supplies exactly that, so
the fuel guard below is equivalent to the real guard
`time.time() - start_time < 20`.  `buf` is the device-side buffer of
already-received lines: `readline` returns its oldest entry first, and new
data from the environment only after it is drained. -/
def loopGo (it : Nat → IterIn) (start fuel i elapsed : Nat) (buf : List (List Nat)) : LoopOut :=
  if h : fuel = 0 ∨ deadlineUs ≤ elapsed then
    { evs := [], path := .completed, emsg := [], endElapsed := elapsed }
  else
    match it i with
    | .noData dt =>
      loopGo it start (fuel - 1) (i + 1) (elapsed + sleepUs + dt + 1) buf
    | .data bs dt =>
      let line := pyRstrip (utf8DecodeReplace (buf.headD bs))
      let r := loopGo it start (fuel - 1) (i + 1) (elapsed + dt + 1) buf.tail
      if line = [] then r
      else { r with evs := (fmtTime (start + elapsed + dt) ++ ' ' :: line) :: r.evs }
    | .readErr msg dt =>
      let r := loopGo it start (fuel - 1) (i + 1) (elapsed + dt + 1) buf
      { r with evs := errReadMsg msg :: r.evs }
    | .raiseSerial msg => { evs := [], path := .serialExc, emsg := msg, endElapsed := elapsed }
    | .raiseOther msg => { evs := [], path := .unexpected, emsg := msg, endElapsed := elapsed }
    | .interrupt => { evs := [], path := .interrupted, emsg := [], endElapsed := elapsed }
termination_by fuel
decreasing_by all_goals (push_neg at h; omega)

/-- Final observable outcome of one execution. -/
structure Result where
  trace : List Ev
  path : ExitPath
  exitCode : Nat
  opened : Bool
  serOpenAtExit : Bool
  endElapsed : Nat
deriving DecidableEq

/-- The whole program (lines 10-47): open, banner, buffer reset, timed loop,
close on the normal path, and the three top-level exception handlers.  The
`KeyboardInterrupt` handler closes only under the guard
`'ser' in locals() and ser.is_open` (line 44); the `SerialException` and
`Exception` handlers never call `close`. -/
def run (env : Env) : Result :=
  match env.openPhase with
  | .fail msg =>
    { trace := [.print (errOpenMsg msg)], path := .serialExc, exitCode := 0,
      opened := false, serOpenAtExit := false, endElapsed := 0 }
  | .kbEarly =>
    { trace := [.print stoppedMsg], path := .interrupted, exitCode := 0,
      opened := false, serOpenAtExit := false, endElapsed := 0 }
  | .otherFail msg =>
    { trace := [.print (errUnexpectedMsg msg)], path := .unexpected, exitCode := 0,
      opened := false, serOpenAtExit := false, endElapsed := 0 }
  | .ok =>
    let pre := Ev.openPort :: (bannerLines.map Ev.print ++ [Ev.resetBuf, Ev.startClock])
    let lo := loopGo env.iter env.startTime deadlineUs 0 0 (resetInputBuffer env.stale)
    match lo.path with
    | .completed =>
      { trace := pre ++ lo.evs.map Ev.print ++ [Ev.closeCall true, Ev.print completeMsg],
        path := .completed, exitCode := 0, opened := true, serOpenAtExit := false,
        endElapsed := lo.endElapsed }
    | .interrupted =>
      { trace := pre ++ lo.evs.map Ev.print ++ [Ev.print stoppedMsg, Ev.closeCall true],
        path := .interrupted, exitCode := 0, opened := true, serOpenAtExit := false,
        endElapsed := lo.endElapsed }
    | .serialExc =>
      { trace := pre ++ lo.evs.map Ev.print ++ [Ev.print (errOpenMsg lo.emsg)],
        path := .serialExc, exitCode := 0, opened := true, serOpenAtExit := true,
        endElapsed := lo.endElapsed }
    | .unexpected =>
      { trace := pre ++ lo.evs.map Ev.print ++ [Ev.print (errUnexpectedMsg lo.emsg)],
        path := .unexpected, exitCode := 0, opened := true, serOpenAtExit := true,
        endElapsed := lo.endElapsed }

/-- Does a printed line start with `[`?  Timestamped records do; banner,
error, and status lines start with `=`, `P`, `E`, `U` or a newline. -/
def isRecordLine : List Char → Bool
  | [] => false
  | c :: _ => c == '['

/-! #### Branch laws of the loop -/

/-- The loop guard is strict: once `elapsed` reaches the deadline (or fuel is
exhausted), the loop exits with nothing more printed. -/
theorem loopGo_exit (it : Nat → IterIn) (start fuel i elapsed : Nat) (buf : List (List Nat))
    (h : fuel = 0 ∨ deadlineUs ≤ elapsed) :
    loopGo it start fuel i elapsed buf =
      { evs := [], path := .completed, emsg := [], endElapsed := elapsed } := by
  rw [loopGo.eq_def, dif_pos h]

/-- Idle branch (lines 34-35): no data, sleep, loop again. -/
theorem loopGo_noData (it : Nat → IterIn) (start fuel i elapsed : Nat) (buf : List (List Nat))
    {dt : Nat} (hf : ¬ (fuel = 0 ∨ deadlineUs ≤ elapsed)) (hit : it i = .noData dt) :
    loopGo it start fuel i elapsed buf =
      loopGo it start (fuel - 1) (i + 1) (elapsed + sleepUs + dt + 1) buf := by
  rw [loopGo.eq_def, dif_neg hf, hit]

/-- Read branch (lines 25-31): a non-empty trimmed line is printed with a
timestamp. -/
theorem loopGo_data (it : Nat → IterIn) (start fuel i elapsed : Nat) (buf : List (List Nat))
    {bs : List Nat} {dt : Nat} (hf : ¬ (fuel = 0 ∨ deadlineUs ≤ elapsed))
    (hit : it i = .data bs dt) :
    loopGo it start fuel i elapsed buf =
      (let line := pyRstrip (utf8DecodeReplace (buf.headD bs))
       let r := loopGo it start (fuel - 1) (i + 1) (elapsed + dt + 1) buf.tail
       if line = [] then r
       else { r with evs := (fmtTime (start + elapsed + dt) ++ ' ' :: line) :: r.evs }) := by
  rw [loopGo.eq_def, dif_neg hf, hit]

/-- Per-line failure branch (lines 32-33): the error is printed and the loop
continues with the next iteration. -/
theorem loopGo_readErr (it : Nat → IterIn) (start fuel i elapsed : Nat) (buf : List (List Nat))
    {msg : List Char} {dt : Nat} (hf : ¬ (fuel = 0 ∨ deadlineUs ≤ elapsed))
    (hit : it i = .readErr msg dt) :
    loopGo it start fuel i elapsed buf =
      (let r := loopGo it start (fuel - 1) (i + 1) (elapsed + dt + 1) buf
       { r with evs := errReadMsg msg :: r.evs }) := by
  rw [loopGo.eq_def, dif_neg hf, hit]

/-- A `SerialException` at the `in_waiting` access escapes the loop. -/
theorem loopGo_raiseSerial (it : Nat → IterIn) (start fuel i elapsed : Nat)
    (buf : List (List Nat)) {msg : List Char} (hf : ¬ (fuel = 0 ∨ deadlineUs ≤ elapsed))
    (hit : it i = .raiseSerial msg) :
    loopGo it start fuel i elapsed buf =
      { evs := [], path := .serialExc, emsg := msg, endElapsed := elapsed } := by
  rw [loopGo.eq_def, dif_neg hf, hit]

/-- Any other `Exception` at the `in_waiting` access escapes the loop. -/
theorem loopGo_raiseOther (it : Nat → IterIn) (start fuel i elapsed : Nat)
    (buf : List (List Nat)) {msg : List Char} (hf : ¬ (fuel = 0 ∨ deadlineUs ≤ elapsed))
    (hit : it i = .raiseOther msg) :
    loopGo it start fuel i elapsed buf =
      { evs := [], path := .unexpected, emsg := msg, endElapsed := elapsed } := by
  rw [loopGo.eq_def, dif_neg hf, hit]

/-- A `KeyboardInterrupt` escapes the loop. -/
theorem loopGo_interrupt (it : Nat → IterIn) (start fuel i elapsed : Nat)
    (buf : List (List Nat)) (hf : ¬ (fuel = 0 ∨ deadlineUs ≤ elapsed))
    (hit : it i = .interrupt) :
    loopGo it start fuel i elapsed buf =
      { evs := [], path := .interrupted, emsg := [], endElapsed := elapsed } := by
  rw [loopGo.eq_def, dif_neg hf, hit]

/-! #### Shape of the loop's output -/

/-- Every timestamped record starts with `[`. -/
theorem isRecordLine_fmtTime_append (t : Nat) (x : List Char) :
    isRecordLine (fmtTime t ++ x) = true := by
  simp [fmtTime, isRecordLine]

/-- A per-line error message starts with the seven characters `Error r`. -/
theorem errReadMsg_take7 (m : List Char) :
    (errReadMsg m).take 7 = "Error r".data := by
  rfl

/-- Every line the loop prints is either a timestamped record (starting with
`[`) or a per-line read error (starting with `Error r`).  In particular the
loop itself never prints a banner, completion, stopped, open-error or
unexpected-error line. -/
theorem loopGo_evs_shape (it : Nat → IterIn) (start : Nat) :
    ∀ (fuel : Nat) (i elapsed : Nat) (buf : List (List Nat)),
      ∀ l ∈ (loopGo it start fuel i elapsed buf).evs,
        isRecordLine l = true ∨ l.take 7 = "Error r".data := by
  intro fuel
  induction fuel using Nat.strong_induction_on with
  | _ fuel ih =>
    intro i elapsed buf l hl
    by_cases hg : fuel = 0 ∨ deadlineUs ≤ elapsed
    · rw [loopGo_exit it start fuel i elapsed buf hg] at hl
      simp at hl
    · have hfuel : fuel - 1 < fuel := by omega
      cases hit : it i with
      | noData dt =>
        rw [loopGo_noData it start fuel i elapsed buf hg hit] at hl
        exact ih _ hfuel _ _ _ l hl
      | data bs dt =>
        rw [loopGo_data it start fuel i elapsed buf hg hit] at hl
        dsimp only at hl
        split at hl
        · exact ih _ hfuel _ _ _ l hl
        · rcases List.mem_cons.mp hl with h | h
          · subst h
            left
            exact isRecordLine_fmtTime_append _ _
          · exact ih _ hfuel _ _ _ l h
      | readErr msg dt =>
        rw [loopGo_readErr it start fuel i elapsed buf hg hit] at hl
        dsimp only at hl
        rcases List.mem_cons.mp hl with h | h
        · subst h
          right
          exact errReadMsg_take7 msg
        · exact ih _ hfuel _ _ _ l h
      | raiseSerial msg =>
        rw [loopGo_raiseSerial it start fuel i elapsed buf hg hit] at hl
        simp at hl
      | raiseOther msg =>
        rw [loopGo_raiseOther it start fuel i elapsed buf hg hit] at hl
        simp at hl
      | interrupt =>
        rw [loopGo_interrupt it start fuel i elapsed buf hg hit] at hl
        simp at hl

/-- An iteration event that raises nothing that escapes the loop body. -/
def benignIter : IterIn → Prop
  | .noData _ => True
  | .data _ _ => True
  | .readErr _ _ => True
  | .raiseSerial _ => False
  | .raiseOther _ => False
  | .interrupt => False

/-- If no iteration raises an exception that escapes the loop body, the loop
always falls out of its guard normally. -/
theorem loopGo_benign_completes (it : Nat → IterIn) (start : Nat)
    (hb : ∀ j, benignIter (it j)) :
    ∀ (fuel : Nat) (i elapsed : Nat) (buf : List (List Nat)),
      (loopGo it start fuel i elapsed buf).path = .completed := by
  intro fuel
  induction fuel using Nat.strong_induction_on with
  | _ fuel ih =>
    intro i elapsed buf
    by_cases hg : fuel = 0 ∨ deadlineUs ≤ elapsed
    · rw [loopGo_exit it start fuel i elapsed buf hg]
    · have hfuel : fuel - 1 < fuel := by omega
      cases hit : it i with
      | noData dt =>
        rw [loopGo_noData it start fuel i elapsed buf hg hit]
        exact ih _ hfuel _ _ _
      | data bs dt =>
        rw [loopGo_data it start fuel i elapsed buf hg hit]
        dsimp only
        split
        · exact ih _ hfuel _ _ _
        · exact ih _ hfuel _ _ _
      | readErr msg dt =>
        rw [loopGo_readErr it start fuel i elapsed buf hg hit]
        exact ih _ hfuel _ _ _
      | raiseSerial msg => exact absurd (hb i) (by simp [benignIter, hit])
      | raiseOther msg => exact absurd (hb i) (by simp [benignIter, hit])
      | interrupt => exact absurd (hb i) (by simp [benignIter, hit])

/-- The printed line carried by an event, if any. -/
def evPrintLine : Ev → Option (List Char)
  | .print l => some l
  | _ => none

/-- The lines written to standard output, in order. -/
def outputs (r : Result) : List (List Char) :=
  r.trace.filterMap evPrintLine

/-- The timestamped records among the printed lines. -/
def recordLines (r : Result) : List (List Char) :=
  (outputs r).filter isRecordLine

/-- Modelled from the spec: "For all lines received while bytes are
available and the line is non-empty after trimming, exactly one printed
record appears, formatted as `[HH:MM:SS] <trimmed line>`"; "Empty lines
(post-trim) produce zero printed records."  This function lists, in arrival
order, the one record per non-empty post-trim line received before the
deadline (and none for empty ones), stopping where the loop stops. -/
def specLogRecords (it : Nat → IterIn) (start fuel i elapsed : Nat) : List (List Char) :=
  if fuel = 0 ∨ deadlineUs ≤ elapsed then []
  else
    match it i with
    | .noData dt => specLogRecords it start (fuel - 1) (i + 1) (elapsed + sleepUs + dt + 1)
    | .data bs dt =>
      let line := pyRstrip (utf8DecodeReplace bs)
      if line = [] then specLogRecords it start (fuel - 1) (i + 1) (elapsed + dt + 1)
      else (fmtTime (start + elapsed + dt) ++ ' ' :: line) ::
        specLogRecords it start (fuel - 1) (i + 1) (elapsed + dt + 1)
    | .readErr _ dt => specLogRecords it start (fuel - 1) (i + 1) (elapsed + dt + 1)
    | .raiseSerial _ => []
    | .raiseOther _ => []
    | .interrupt => []
termination_by fuel
decreasing_by all_goals omega

/-- A per-line error message starts with `E`, not `[`. -/
theorem isRecordLine_errReadMsg (m : List Char) : isRecordLine (errReadMsg m) = false := rfl

/-- The loop's timestamped records (with an empty startup buffer, as after
`reset_input_buffer`) are exactly the records the spec promises: one per
non-empty post-trim line, none for empty lines, in order. -/
theorem loopGo_filter_records (it : Nat → IterIn) (start : Nat) :
    ∀ (fuel i elapsed : Nat),
      (loopGo it start fuel i elapsed []).evs.filter isRecordLine =
        specLogRecords it start fuel i elapsed := by
  intro fuel
  induction fuel using Nat.strong_induction_on with
  | _ fuel ih =>
    intro i elapsed
    by_cases hg : fuel = 0 ∨ deadlineUs ≤ elapsed
    · rw [loopGo_exit it start fuel i elapsed [] hg, specLogRecords.eq_def,
        if_pos hg]
      rfl
    · have hfuel : fuel - 1 < fuel := by omega
      rw [specLogRecords.eq_def, if_neg hg]
      cases hit : it i with
      | noData dt =>
        rw [loopGo_noData it start fuel i elapsed [] hg hit]
        exact ih _ hfuel _ _
      | data bs dt =>
        rw [loopGo_data it start fuel i elapsed [] hg hit]
        simp only [List.headD_nil, List.tail_nil]
        split
        · exact ih _ hfuel _ _
        · dsimp only
          rw [List.filter_cons, isRecordLine_fmtTime_append, if_pos rfl, ih _ hfuel _ _]
      | readErr msg dt =>
        rw [loopGo_readErr it start fuel i elapsed [] hg hit]
        dsimp only
        rw [List.filter_cons, isRecordLine_errReadMsg, if_neg (by simp)]
        exact ih _ hfuel _ _
      | raiseSerial msg =>
        rw [loopGo_raiseSerial it start fuel i elapsed [] hg hit]
        rfl
      | raiseOther msg =>
        rw [loopGo_raiseOther it start fuel i elapsed [] hg hit]
        rfl
      | interrupt =>
        rw [loopGo_interrupt it start fuel i elapsed [] hg hit]
        rfl

/-- Timing bound: if every iteration is an idle poll whose total duration
(10 ms sleep plus overhead) is at most the 1-second read timeout, the loop's
final `elapsed` stays below deadline + timeout. -/
theorem loopGo_noInput_bound (it : Nat → IterIn) (start : Nat)
    (h : ∀ j, ∃ dt, it j = .noData dt ∧ sleepUs + dt + 1 ≤ readTimeoutUs) :
    ∀ (fuel i elapsed : Nat) (buf : List (List Nat)),
      elapsed < deadlineUs + readTimeoutUs →
      (loopGo it start fuel i elapsed buf).endElapsed < deadlineUs + readTimeoutUs := by
  intro fuel
  induction fuel using Nat.strong_induction_on with
  | _ fuel ih =>
    intro i elapsed buf he
    by_cases hg : fuel = 0 ∨ deadlineUs ≤ elapsed
    · rw [loopGo_exit it start fuel i elapsed buf hg]
      exact he
    · obtain ⟨dt, hit, hdt⟩ := h i
      rw [loopGo_noData it start fuel i elapsed buf hg hit]
      have hfuel : fuel - 1 < fuel := by omega
      apply ih _ hfuel
      push_neg at hg
      have : elapsed < deadlineUs := hg.2
      omega

/-- Mapping lines into print events and projecting back is the identity. -/
theorem filterMap_evPrintLine_map (l : List (List Char)) :
    (l.map Ev.print).filterMap evPrintLine = l := by
  induction l with
  | nil => rfl
  | cons x xs ih => simp [evPrintLine, ih]

/-- Composed form of `filterMap_evPrintLine_map`. -/
theorem filterMap_evPrintLine_comp (l : List (List Char)) :
    l.filterMap (evPrintLine ∘ Ev.print) = l := by
  induction l with
  | nil => rfl
  | cons x xs ih => simp [evPrintLine, Function.comp, ih]

/-! #### Discriminating the printed line kinds -/

/-- An open-error line starts with the seven characters `Error o`. -/
theorem errOpenMsg_take7 (m : List Char) : (errOpenMsg m).take 7 = "Error o".data := rfl

/-- An unexpected-error line starts with the seven characters `Unexpec`. -/
theorem errUnexpectedMsg_take7 (m : List Char) :
    (errUnexpectedMsg m).take 7 = "Unexpec".data := rfl

/-- None of the terminal status or error lines looks like a record. -/
theorem isRecordLine_errOpenMsg (m : List Char) : isRecordLine (errOpenMsg m) = false := rfl

/-- See `isRecordLine_errOpenMsg`. -/
theorem isRecordLine_errUnexpectedMsg (m : List Char) :
    isRecordLine (errUnexpectedMsg m) = false := rfl

/-- See `isRecordLine_errOpenMsg`. -/
theorem isRecordLine_completeMsg : isRecordLine completeMsg = false := rfl

/-- See `isRecordLine_errOpenMsg`. -/
theorem isRecordLine_stoppedMsg : isRecordLine stoppedMsg = false := rfl

/-- The banner contains no record-shaped line. -/
theorem bannerLines_filter_records : bannerLines.filter isRecordLine = [] := by decide

/-- A line printed by the loop body (a record or a read-error line) is never
the stopped message, an open-error line, or an unexpected-error line. -/
theorem loop_line_not_status (l : List Char)
    (h : isRecordLine l = true ∨ l.take 7 = "Error r".data) :
    (l == stoppedMsg) = false ∧
    (l.take 7 == "Error o".data) = false ∧
    (l.take 7 == "Unexpec".data) = false := by
  rcases h with h | h
  · cases l with
    | nil => simp [isRecordLine] at h
    | cons c t =>
      simp only [isRecordLine, beq_iff_eq] at h
      subst h
      refine ⟨?_, ?_, ?_⟩ <;> rw [beq_eq_false_iff_ne] <;> intro hc
      · have : stoppedMsg.headD ' ' = '[' := by rw [← hc]; rfl
        simp [stoppedMsg] at this
      · have : ('[' :: t).take 7 = 'E' :: "rror o".data := hc
        simp [List.take] at this
      · have : ('[' :: t).take 7 = 'U' :: "nexpec".data := hc
        simp [List.take] at this
  · refine ⟨?_, ?_, ?_⟩ <;> rw [beq_eq_false_iff_ne] <;> intro hc
    · rw [hc] at h
      simp [stoppedMsg] at h
    · rw [hc] at h
      simp at h
    · rw [hc] at h
      simp at h

/-- The loop never prints the stopped message, an open-error line, or an
unexpected-error line; hence those counts over its output are zero. -/
theorem loopGo_evs_status_counts (it : Nat → IterIn) (start fuel i elapsed : Nat)
    (buf : List (List Nat)) :
    (loopGo it start fuel i elapsed buf).evs.countP (fun l => l == stoppedMsg) = 0 ∧
    (loopGo it start fuel i elapsed buf).evs.countP (fun l => l.take 7 == "Error o".data) = 0 ∧
    (loopGo it start fuel i elapsed buf).evs.countP (fun l => l.take 7 == "Unexpec".data) = 0 := by
  refine ⟨?_, ?_, ?_⟩ <;>
    rw [List.countP_eq_zero] <;>
    intro l hl <;>
    have := loop_line_not_status l (loopGo_evs_shape it start fuel i elapsed buf l hl) <;>
    simp_all

/-! #### `pyRstrip` keeps non-whitespace characters -/

/-- Dropping a satisfying prefix never removes an element that falsifies the
predicate. -/
theorem mem_dropWhile_of_mem {p : Char → Bool} :
    ∀ (xs : List Char) (c : Char), c ∈ xs → p c = false → c ∈ xs.dropWhile p := by
  intro xs
  induction xs with
  | nil => intro c hc; simp at hc
  | cons x t ih =>
    intro c hc hp
    rw [List.dropWhile_cons]
    split
    · next hx =>
      rcases List.mem_cons.mp hc with rfl | hct
      · rw [hp] at hx; cases hx
      · exact ih c hct hp
    · exact hc

/-- Stripping keeps every non-whitespace character, so a line containing one
is non-empty after stripping. -/
theorem mem_pyRstrip_of_not_space {c : Char} {l : List Char}
    (hc : c ∈ l) (hp : isPySpace c = false) :
    c ∈ pyRstrip l ∧ pyRstrip l ≠ [] := by
  have h1 : c ∈ l.reverse := List.mem_reverse.mpr hc
  have h2 : c ∈ l.reverse.dropWhile isPySpace := mem_dropWhile_of_mem _ c h1 hp
  have h3 : c ∈ pyRstrip l := by
    rw [pyRstrip, List.mem_reverse]
    exact h2
  exact ⟨h3, List.ne_nil_of_mem h3⟩

/-- The replacement character is not whitespace. -/
theorem isPySpace_replChar : isPySpace replChar = false := by decide

/-! #### The printed timestamp carries the wall-clock second -/

/-- Rendering a digit with `Nat.digitChar` yields a decimal digit character. -/
theorem digitChar_isDigit {d : Nat} (h : d < 10) : (Nat.digitChar d).isDigit = true := by
  interval_cases d <;> decide

/-- The function `digitVal` inverts `Nat.digitChar` on digits. -/
theorem digitVal_digitChar {d : Nat} (h : d < 10) : digitVal (Nat.digitChar d) = d := by
  interval_cases d <;> decide

/-- Parsing the formatted timestamp recovers exactly the second-of-day of
the wall-clock instant: the record carries local time in whole seconds. -/
theorem parseHMS_fmtTime (t : Nat) :
    parseHMS (fmtTime t) = some ((t / 1000000) % 86400) := by
  have hsod : (t / 1000000) % 86400 < 86400 := Nat.mod_lt _ (by norm_num)
  set sod := (t / 1000000) % 86400 with hsoddef
  have hhh : sod / 3600 < 24 := by omega
  have hmm : (sod % 3600) / 60 < 60 := by omega
  have hss : sod % 60 < 60 := by omega
  have d1 : sod / 3600 / 10 < 10 := by omega
  have d2 : sod / 3600 % 10 < 10 := by omega
  have d3 : (sod % 3600) / 60 / 10 < 10 := by omega
  have d4 : (sod % 3600) / 60 % 10 < 10 := by omega
  have d5 : sod % 60 / 10 < 10 := by omega
  have d6 : sod % 60 % 10 < 10 := by omega
  simp only [fmtTime, pad2, ← hsoddef, List.cons_append, List.nil_append]
  rw [parseHMS]
  rw [if_pos]
  · rw [Option.some_inj]
    rw [digitVal_digitChar d1, digitVal_digitChar d2, digitVal_digitChar d3,
      digitVal_digitChar d4, digitVal_digitChar d5, digitVal_digitChar d6]
    omega
  · simp [digitChar_isDigit d1, digitChar_isDigit d2, digitChar_isDigit d3,
      digitChar_isDigit d4, digitChar_isDigit d5, digitChar_isDigit d6]

/-- On a successful open, the program is the banner, the loop, and one of
the four terminal continuations selected by how the loop ended. -/
theorem run_ok_eq (env : Env) (h : env.openPhase = .ok) :
    run env =
      (let pre := Ev.openPort :: (bannerLines.map Ev.print ++ [Ev.resetBuf, Ev.startClock])
       let lo := loopGo env.iter env.startTime deadlineUs 0 0 []
       match lo.path with
       | .completed =>
         { trace := pre ++ lo.evs.map Ev.print ++ [Ev.closeCall true, Ev.print completeMsg],
           path := .completed, exitCode := 0, opened := true, serOpenAtExit := false,
           endElapsed := lo.endElapsed }
       | .interrupted =>
         { trace := pre ++ lo.evs.map Ev.print ++ [Ev.print stoppedMsg, Ev.closeCall true],
           path := .interrupted, exitCode := 0, opened := true, serOpenAtExit := false,
           endElapsed := lo.endElapsed }
       | .serialExc =>
         { trace := pre ++ lo.evs.map Ev.print ++ [Ev.print (errOpenMsg lo.emsg)],
           path := .serialExc, exitCode := 0, opened := true, serOpenAtExit := true,
           endElapsed := lo.endElapsed }
       | .unexpected =>
         { trace := pre ++ lo.evs.map Ev.print ++ [Ev.print (errUnexpectedMsg lo.emsg)],
           path := .unexpected, exitCode := 0, opened := true, serOpenAtExit := true,
           endElapsed := lo.endElapsed }) := by
  simp only [run, h, resetInputBuffer]

/-- Standard output on the normal path: banner, loop output, completion. -/
theorem outputs_run_completed (env : Env) (h : env.openPhase = .ok)
    (hp : (loopGo env.iter env.startTime deadlineUs 0 0 []).path = .completed) :
    outputs (run env) =
      bannerLines ++ (loopGo env.iter env.startTime deadlineUs 0 0 []).evs ++ [completeMsg] := by
  rw [run_ok_eq env h]
  dsimp only
  rw [hp]
  dsimp only
  simp [outputs, evPrintLine, filterMap_evPrintLine_map, filterMap_evPrintLine_comp,
    List.filterMap_append]

/-- Standard output on the interrupt path: banner, loop output, stopped. -/
theorem outputs_run_interrupted (env : Env) (h : env.openPhase = .ok)
    (hp : (loopGo env.iter env.startTime deadlineUs 0 0 []).path = .interrupted) :
    outputs (run env) =
      bannerLines ++ (loopGo env.iter env.startTime deadlineUs 0 0 []).evs ++ [stoppedMsg] := by
  rw [run_ok_eq env h]
  dsimp only
  rw [hp]
  dsimp only
  simp [outputs, evPrintLine, filterMap_evPrintLine_map, filterMap_evPrintLine_comp,
    List.filterMap_append]

/-- Standard output when a `SerialException` escapes the loop. -/
theorem outputs_run_serialExc (env : Env) (h : env.openPhase = .ok)
    (hp : (loopGo env.iter env.startTime deadlineUs 0 0 []).path = .serialExc) :
    outputs (run env) =
      bannerLines ++ (loopGo env.iter env.startTime deadlineUs 0 0 []).evs ++
        [errOpenMsg (loopGo env.iter env.startTime deadlineUs 0 0 []).emsg] := by
  rw [run_ok_eq env h]
  dsimp only
  rw [hp]
  dsimp only
  simp [outputs, evPrintLine, filterMap_evPrintLine_map, filterMap_evPrintLine_comp,
    List.filterMap_append]

/-- Standard output when an unexpected exception escapes the loop. -/
theorem outputs_run_unexpected (env : Env) (h : env.openPhase = .ok)
    (hp : (loopGo env.iter env.startTime deadlineUs 0 0 []).path = .unexpected) :
    outputs (run env) =
      bannerLines ++ (loopGo env.iter env.startTime deadlineUs 0 0 []).evs ++
        [errUnexpectedMsg (loopGo env.iter env.startTime deadlineUs 0 0 []).emsg] := by
  rw [run_ok_eq env h]
  dsimp only
  rw [hp]
  dsimp only
  simp [outputs, evPrintLine, filterMap_evPrintLine_map, filterMap_evPrintLine_comp,
    List.filterMap_append]

/-- On a successful open the final path, exit code, opened flag and end time
are the loop's, whatever branch the loop ended on. -/
theorem run_fields_ok (env : Env) (h : env.openPhase = .ok) :
    (run env).path = (loopGo env.iter env.startTime deadlineUs 0 0 []).path ∧
    (run env).exitCode = 0 ∧
    (run env).opened = true ∧
    (run env).endElapsed = (loopGo env.iter env.startTime deadlineUs 0 0 []).endElapsed := by
  rw [run_ok_eq env h]
  dsimp only
  cases (loopGo env.iter env.startTime deadlineUs 0 0 []).path <;>
    exact ⟨rfl, rfl, rfl, rfl⟩

/-! ### Claims -/

/-- Witness environment: opening the port fails with a `SerialException`. -/
def envOpenFail : Env :=
  { openPhase := .fail "could not open port /dev/ttyUSB0".data,
    stale := [], startTime := 0, iter := fun _ => .noData 0 }

/-- C3: if opening the serial port fails, a single labeled error message is
printed to standard output, the monitoring loop is never entered (no
`startClock` event, the loop guard is never evaluated), and zero other lines
— banner or timestamped — are ever printed. -/
theorem claim_c3_open_failure (env : Env) (msg : List Char)
    (h : env.openPhase = .fail msg) :
    (run env).trace = [Ev.print (errOpenMsg msg)] ∧
    outputs (run env) = [errOpenMsg msg] ∧
    recordLines (run env) = [] ∧
    Ev.startClock ∉ (run env).trace ∧
    (run env).exitCode = 0 := by
  have hr : run env =
      { trace := [.print (errOpenMsg msg)], path := .serialExc, exitCode := 0,
        opened := false, serOpenAtExit := false, endElapsed := 0 } := by
    simp only [run]
    rw [h]
  rw [hr]
  refine ⟨rfl, rfl, ?_, by simp, rfl⟩
  simp [recordLines, outputs, evPrintLine, List.filter, isRecordLine_errOpenMsg]

/-- C3 witness: a concrete failed open. -/
theorem claim_c3_witness :
    envOpenFail.openPhase = .fail "could not open port /dev/ttyUSB0".data ∧
    outputs (run envOpenFail) = [errOpenMsg "could not open port /dev/ttyUSB0".data] ∧
    recordLines (run envOpenFail) = [] :=
  ⟨rfl,
   (claim_c3_open_failure envOpenFail "could not open port /dev/ttyUSB0".data rfl).2.1,
   (claim_c3_open_failure envOpenFail "could not open port /dev/ttyUSB0".data rfl).2.2.1⟩

/-- Environment in which the port opens and the very first poll of
`ser.in_waiting` raises a non-serial `Exception`. -/
def envUnexpectedInLoop : Env :=
  { openPhase := .ok, stale := [], startTime := 0,
    iter := fun _ => .raiseOther "boom".data }

/-- C1 counterexample: on the unexpected-error exit path the connection was
opened but `ser.close()` is never invoked — the handle is still open when
the program terminates, because the top-level `except Exception` handler
(line 46) only prints.  This refutes "closed on every exit path". -/
theorem claim_c1_counterexample :
    (run envUnexpectedInLoop).opened = true ∧
    (run envUnexpectedInLoop).serOpenAtExit = true ∧
    (run envUnexpectedInLoop).path = .unexpected := by
  have hl : loopGo envUnexpectedInLoop.iter envUnexpectedInLoop.startTime deadlineUs 0 0 [] =
      { evs := [], path := .unexpected, emsg := "boom".data, endElapsed := 0 } :=
    loopGo_raiseOther _ _ _ _ _ _ (by decide) rfl
  rw [run_ok_eq envUnexpectedInLoop rfl]
  dsimp only
  rw [hl]
  exact ⟨rfl, rfl, rfl⟩

/-- C1 (amended): the connection is closed before termination on the normal
completion and interrupt paths (and trivially there is nothing to close when
the open never succeeded); on the unexpected-error path and on a
`SerialException` escaping the loop after a successful open the handle
remains open. -/
theorem claim_c1_close_on_normal_and_interrupt (env : Env)
    (h : (run env).path = .completed ∨ (run env).path = .interrupted ∨
         (run env).opened = false) :
    (run env).serOpenAtExit = false := by
  cases henv : env.openPhase with
  | ok =>
    rw [run_ok_eq env henv]
    rw [run_ok_eq env henv] at h
    dsimp only at h ⊢
    revert h
    cases (loopGo env.iter env.startTime deadlineUs 0 0 []).path <;> intro h <;> simp_all
  | fail msg => simp only [run] at h ⊢ <;> rw [henv] <;> rfl
  | kbEarly => simp only [run] at h ⊢ <;> rw [henv] <;> rfl
  | otherFail msg => simp only [run] at h ⊢ <;> rw [henv] <;> rfl

/-- Environment in which the port opens and a `KeyboardInterrupt` arrives in
the first loop iteration. -/
def envInterruptFirst : Env :=
  { openPhase := .ok, stale := [], startTime := 0, iter := fun _ => .interrupt }

/-- C1 witness: on a concrete interrupted run the handle is closed. -/
theorem claim_c1_witness :
    (run envInterruptFirst).path = .interrupted ∧
    (run envInterruptFirst).serOpenAtExit = false := by
  have hl : loopGo envInterruptFirst.iter envInterruptFirst.startTime deadlineUs 0 0 [] =
      { evs := [], path := .interrupted, emsg := [], endElapsed := 0 } :=
    loopGo_interrupt _ _ _ _ _ _ (by decide) rfl
  have hpath : (run envInterruptFirst).path = .interrupted := by
    rw [(run_fields_ok envInterruptFirst rfl).1, hl]
  exact ⟨hpath, claim_c1_close_on_normal_and_interrupt envInterruptFirst (Or.inr (Or.inl hpath))⟩

/-- C10: `ser.close()` is never invoked on a closed or unbound handle: every
`closeCall` event in every execution carries `is_open = true`, and when the
interrupt arrives before `ser` is bound the handler's
`'ser' in locals() and ser.is_open` guard skips the close — the program just
prints the stopped message and exits cleanly. -/
theorem claim_c10_close_only_when_open (env : Env) :
    Ev.closeCall false ∉ (run env).trace ∧
    (env.openPhase = .kbEarly →
      (run env).trace = [Ev.print stoppedMsg] ∧ (run env).exitCode = 0) := by
  cases henv : env.openPhase with
  | ok =>
    constructor
    · rw [run_ok_eq env henv]
      dsimp only
      cases (loopGo env.iter env.startTime deadlineUs 0 0 []).path <;>
        simp [bannerLines, List.mem_append, List.mem_map]
    · intro hkb
      cases hkb
  | fail msg =>
    have hr : run env =
        { trace := [.print (errOpenMsg msg)], path := .serialExc, exitCode := 0,
          opened := false, serOpenAtExit := false, endElapsed := 0 } := by
      simp only [run]; rw [henv]
    rw [hr]
    exact ⟨by simp, fun hkb => by cases hkb⟩
  | kbEarly =>
    have hr : run env =
        { trace := [.print stoppedMsg], path := .interrupted, exitCode := 0,
          opened := false, serOpenAtExit := false, endElapsed := 0 } := by
      simp only [run]; rw [henv]
    rw [hr]
    exact ⟨by simp, fun _ => ⟨rfl, rfl⟩⟩
  | otherFail msg =>
    have hr : run env =
        { trace := [.print (errUnexpectedMsg msg)], path := .unexpected, exitCode := 0,
          opened := false, serOpenAtExit := false, endElapsed := 0 } := by
      simp only [run]; rw [henv]
    rw [hr]
    exact ⟨by simp, fun hkb => by cases hkb⟩

/-- Environment in which a `KeyboardInterrupt` arrives before `ser` is
bound. -/
def envInterruptBeforeOpen : Env :=
  { openPhase := .kbEarly, stale := [], startTime := 0, iter := fun _ => .noData 0 }

/-- C10 witness: interrupt before bind — no close call, clean exit. -/
theorem claim_c10_witness :
    Ev.closeCall false ∉ (run envInterruptBeforeOpen).trace ∧
    (run envInterruptBeforeOpen).trace = [Ev.print stoppedMsg] :=
  ⟨(claim_c10_close_only_when_open envInterruptBeforeOpen).1,
   ((claim_c10_close_only_when_open envInterruptBeforeOpen).2 rfl).1⟩

/-- The banner never contains the stopped message. -/
theorem bannerLines_countP_stopped :
    bannerLines.countP (fun l => l == stoppedMsg) = 0 := by decide

/-- The banner never contains an open-error line. -/
theorem bannerLines_countP_openErr :
    bannerLines.countP (fun l => l.take 7 == "Error o".data) = 0 := by decide

/-- The banner never contains an unexpected-error line. -/
theorem bannerLines_countP_unexpected :
    bannerLines.countP (fun l => l.take 7 == "Unexpec".data) = 0 := by decide

/-- Print events are never close events. -/
theorem count_closeCall_map_print (l : List (List Char)) (b : Bool) :
    (l.map Ev.print).count (Ev.closeCall b) = 0 := by
  rw [List.count_eq_zero]
  simp [List.mem_map]

/-- C9: on every execution path the process exits with status 0 (no
exception propagates as a crash — every environment yields a final
`Result`), and each terminal failure or interrupt produces exactly one
corresponding printed message. -/
theorem claim_c9_clean_exit (env : Env) :
    (run env).exitCode = 0 ∧
    ((run env).path = .interrupted →
      (outputs (run env)).countP (fun l => l == stoppedMsg) = 1) ∧
    ((run env).path = .serialExc →
      (outputs (run env)).countP (fun l => l.take 7 == "Error o".data) = 1) ∧
    ((run env).path = .unexpected →
      (outputs (run env)).countP (fun l => l.take 7 == "Unexpec".data) = 1) := by
  cases henv : env.openPhase with
  | ok =>
    obtain ⟨hpath, hcode, -, -⟩ := run_fields_ok env henv
    refine ⟨hcode, ?_, ?_, ?_⟩ <;> intro hp <;> rw [hpath] at hp
    · rw [outputs_run_interrupted env henv hp]
      simp [List.countP_append, bannerLines_countP_stopped,
        (loopGo_evs_status_counts env.iter env.startTime deadlineUs 0 0 []).1,
        List.countP_cons]
    · rw [outputs_run_serialExc env henv hp]
      simp [List.countP_append, bannerLines_countP_openErr,
        (loopGo_evs_status_counts env.iter env.startTime deadlineUs 0 0 []).2.1,
        List.countP_cons, errOpenMsg_take7]
    · rw [outputs_run_unexpected env henv hp]
      simp [List.countP_append, bannerLines_countP_unexpected,
        (loopGo_evs_status_counts env.iter env.startTime deadlineUs 0 0 []).2.2,
        List.countP_cons, errUnexpectedMsg_take7]
  | fail msg =>
    have hr : run env =
        { trace := [.print (errOpenMsg msg)], path := .serialExc, exitCode := 0,
          opened := false, serOpenAtExit := false, endElapsed := 0 } := by
      simp only [run]; rw [henv]
    rw [hr]
    refine ⟨rfl, ?_, ?_, ?_⟩ <;> intro hp
    · simp at hp
    · simp [outputs, evPrintLine, List.countP_cons, errOpenMsg_take7]
    · simp at hp
  | kbEarly =>
    have hr : run env =
        { trace := [.print stoppedMsg], path := .interrupted, exitCode := 0,
          opened := false, serOpenAtExit := false, endElapsed := 0 } := by
      simp only [run]; rw [henv]
    rw [hr]
    refine ⟨rfl, ?_, ?_, ?_⟩ <;> intro hp
    · simp [outputs, evPrintLine, List.countP_cons]
    · simp at hp
    · simp at hp
  | otherFail msg =>
    have hr : run env =
        { trace := [.print (errUnexpectedMsg msg)], path := .unexpected, exitCode := 0,
          opened := false, serOpenAtExit := false, endElapsed := 0 } := by
      simp only [run]; rw [henv]
    rw [hr]
    refine ⟨rfl, ?_, ?_, ?_⟩ <;> intro hp
    · simp at hp
    · simp at hp
    · simp [outputs, evPrintLine, List.countP_cons, errUnexpectedMsg_take7]

/-- Environment in which the open call itself raises a non-serial error. -/
def envOtherFailAtOpen : Env :=
  { openPhase := .otherFail "weird".data, stale := [], startTime := 0,
    iter := fun _ => .noData 0 }

/-- C9 witness: a concrete unexpected failure exits 0 with one message. -/
theorem claim_c9_witness :
    (run envOtherFailAtOpen).exitCode = 0 ∧
    (run envOtherFailAtOpen).path = .unexpected ∧
    (outputs (run envOtherFailAtOpen)).countP (fun l => l.take 7 == "Unexpec".data) = 1 := by
  have hp : (run envOtherFailAtOpen).path = .unexpected := by
    simp only [run, envOtherFailAtOpen]
  exact ⟨(claim_c9_clean_exit envOtherFailAtOpen).1, hp,
    (claim_c9_clean_exit envOtherFailAtOpen).2.2.2 hp⟩

/-- C6: an interrupt delivered during the loop produces exactly one stopped
message, exactly one close call — made while the handle is open, and none on
a closed handle — and the program terminates cleanly with exit code 0 and
the handle released. -/
theorem claim_c6_interrupt_stops_and_closes (env : Env) (h : env.openPhase = .ok)
    (hp : (run env).path = .interrupted) :
    (outputs (run env)).countP (fun l => l == stoppedMsg) = 1 ∧
    (run env).trace.count (Ev.closeCall true) = 1 ∧
    Ev.closeCall false ∉ (run env).trace ∧
    (run env).serOpenAtExit = false ∧
    (run env).exitCode = 0 := by
  obtain ⟨hpath, hcode, -, -⟩ := run_fields_ok env h
  rw [hpath] at hp
  refine ⟨?_, ?_, ?_, ?_, hcode⟩
  · rw [outputs_run_interrupted env h hp]
    simp [List.countP_append, bannerLines_countP_stopped,
      (loopGo_evs_status_counts env.iter env.startTime deadlineUs 0 0 []).1,
      List.countP_cons]
  · rw [run_ok_eq env h]
    dsimp only
    rw [hp]
    dsimp only
    simp [List.count_append, List.count_cons, count_closeCall_map_print, bannerLines]
  · rw [run_ok_eq env h]
    dsimp only
    rw [hp]
    dsimp only
    simp [List.mem_append, List.mem_map, bannerLines]
  · rw [run_ok_eq env h]
    dsimp only
    rw [hp]

/-- Environment with one quiet poll and then a `KeyboardInterrupt`. -/
def envInterruptSecond : Env :=
  { openPhase := .ok, stale := [], startTime := 0,
    iter := fun i => match i with | 0 => .noData 3 | _ => .interrupt }

/-- C6 witness: a concrete mid-loop interrupt. -/
theorem claim_c6_witness :
    (run envInterruptSecond).path = .interrupted ∧
    (outputs (run envInterruptSecond)).countP (fun l => l == stoppedMsg) = 1 ∧
    (run envInterruptSecond).trace.count (Ev.closeCall true) = 1 ∧
    (run envInterruptSecond).serOpenAtExit = false := by
  have hl : loopGo envInterruptSecond.iter envInterruptSecond.startTime deadlineUs 0 0 [] =
      { evs := [], path := .interrupted, emsg := [], endElapsed := 0 + sleepUs + 3 + 1 } := by
    rw [loopGo_noData envInterruptSecond.iter envInterruptSecond.startTime deadlineUs 0 0 []
      (by decide) rfl]
    exact loopGo_interrupt _ _ _ _ _ _ (by decide) rfl
  have hp : (run envInterruptSecond).path = .interrupted := by
    rw [(run_fields_ok envInterruptSecond rfl).1, hl]
  obtain ⟨h1, h2, -, h4, -⟩ := claim_c6_interrupt_stops_and_closes envInterruptSecond rfl hp
  exact ⟨hp, h1, h2, h4⟩

/-- C8: the input buffer is discarded exactly once, after the open and the
banner and before the start-of-clock (hence before the timed loop and before
any loop output: everything after `startClock` is a print or a close); and
the result of the whole run is independent of whatever stale bytes were
buffered at startup — no stale byte is ever printed. -/
theorem claim_c8_reset_once_no_stale (env : Env) :
    (env.openPhase = .ok →
      ∃ rest, (run env).trace =
        Ev.openPort :: (bannerLines.map Ev.print ++ [Ev.resetBuf, Ev.startClock]) ++ rest ∧
        ∀ e ∈ rest, (∃ l, e = Ev.print l) ∨ (∃ b, e = Ev.closeCall b)) ∧
    (∀ s, run { env with stale := s } = run env) := by
  constructor
  · intro hok
    rw [run_ok_eq env hok]
    dsimp only
    cases (loopGo env.iter env.startTime deadlineUs 0 0 []).path
    · refine ⟨(loopGo env.iter env.startTime deadlineUs 0 0 []).evs.map Ev.print ++
        [Ev.closeCall true, Ev.print completeMsg], by simp, ?_⟩
      intro e he
      rcases List.mem_append.mp he with he | he
      · obtain ⟨l, -, rfl⟩ := List.mem_map.mp he
        exact Or.inl ⟨l, rfl⟩
      · rcases List.mem_cons.mp he with rfl | he
        · exact Or.inr ⟨true, rfl⟩
        · rcases List.mem_cons.mp he with rfl | he
          · exact Or.inl ⟨completeMsg, rfl⟩
          · simp at he
    · refine ⟨(loopGo env.iter env.startTime deadlineUs 0 0 []).evs.map Ev.print ++
        [Ev.print (errOpenMsg (loopGo env.iter env.startTime deadlineUs 0 0 []).emsg)],
        by simp, ?_⟩
      intro e he
      rcases List.mem_append.mp he with he | he
      · obtain ⟨l, -, rfl⟩ := List.mem_map.mp he
        exact Or.inl ⟨l, rfl⟩
      · rcases List.mem_cons.mp he with rfl | he
        · exact Or.inl ⟨_, rfl⟩
        · simp at he
    · refine ⟨(loopGo env.iter env.startTime deadlineUs 0 0 []).evs.map Ev.print ++
        [Ev.print stoppedMsg, Ev.closeCall true], by simp, ?_⟩
      intro e he
      rcases List.mem_append.mp he with he | he
      · obtain ⟨l, -, rfl⟩ := List.mem_map.mp he
        exact Or.inl ⟨l, rfl⟩
      · rcases List.mem_cons.mp he with rfl | he
        · exact Or.inl ⟨stoppedMsg, rfl⟩
        · rcases List.mem_cons.mp he with rfl | he
          · exact Or.inr ⟨true, rfl⟩
          · simp at he
    · refine ⟨(loopGo env.iter env.startTime deadlineUs 0 0 []).evs.map Ev.print ++
        [Ev.print (errUnexpectedMsg (loopGo env.iter env.startTime deadlineUs 0 0 []).emsg)],
        by simp, ?_⟩
      intro e he
      rcases List.mem_append.mp he with he | he
      · obtain ⟨l, -, rfl⟩ := List.mem_map.mp he
        exact Or.inl ⟨l, rfl⟩
      · rcases List.mem_cons.mp he with rfl | he
        · exact Or.inl ⟨_, rfl⟩
        · simp at he
  · intro s
    simp only [run, resetInputBuffer]

/-- Environment with stale buffered bytes at startup. -/
def envStale : Env :=
  { openPhase := .ok, stale := [[0x6F, 0x6C, 0x64]], startTime := 0,
    iter := fun _ => .interrupt }

/-- C8 witness: a concrete run whose result ignores the stale buffer. -/
theorem claim_c8_witness :
    envStale.openPhase = .ok ∧
    (∃ rest, (run envStale).trace =
      Ev.openPort :: (bannerLines.map Ev.print ++ [Ev.resetBuf, Ev.startClock]) ++ rest ∧
      ∀ e ∈ rest, (∃ l, e = Ev.print l) ∨ (∃ b, e = Ev.closeCall b)) ∧
    run { envStale with stale := [] } = run envStale :=
  ⟨rfl, (claim_c8_reset_once_no_stale envStale).1 rfl,
   (claim_c8_reset_once_no_stale envStale).2 []⟩

/-- C2: the timestamped records a successful run prints are exactly the
spec's records — one `[HH:MM:SS] <trimmed line>` per line that is non-empty
after trimming, zero for post-trim-empty lines, in arrival order — and the
printed timestamp encodes precisely the wall-clock second of the read. -/
theorem claim_c2_one_record_per_line (env : Env) (hok : env.openPhase = .ok) :
    recordLines (run env) = specLogRecords env.iter env.startTime deadlineUs 0 0 ∧
    (∀ t, parseHMS (fmtTime t) = some ((t / 1000000) % 86400)) := by
  refine ⟨?_, parseHMS_fmtTime⟩
  cases hp : (loopGo env.iter env.startTime deadlineUs 0 0 []).path with
  | completed =>
    rw [recordLines, outputs_run_completed env hok hp]
    simp only [List.filter_append, bannerLines_filter_records,
      loopGo_filter_records, List.filter_cons, isRecordLine_completeMsg,
      List.filter_nil, List.nil_append, List.append_nil]
    simp
  | interrupted =>
    rw [recordLines, outputs_run_interrupted env hok hp]
    simp only [List.filter_append, bannerLines_filter_records,
      loopGo_filter_records, List.filter_cons, isRecordLine_stoppedMsg,
      List.filter_nil, List.nil_append, List.append_nil]
    simp
  | serialExc =>
    rw [recordLines, outputs_run_serialExc env hok hp]
    simp only [List.filter_append, bannerLines_filter_records,
      loopGo_filter_records, List.filter_cons, isRecordLine_errOpenMsg,
      List.filter_nil, List.nil_append, List.append_nil]
    simp
  | unexpected =>
    rw [recordLines, outputs_run_unexpected env hok hp]
    simp only [List.filter_append, bannerLines_filter_records,
      loopGo_filter_records, List.filter_cons, isRecordLine_errUnexpectedMsg,
      List.filter_nil, List.nil_append, List.append_nil]
    simp

/-- Environment delivering one line `hello\r\n` and then silence. -/
def envHello : Env :=
  { openPhase := .ok, stale := [], startTime := 3661000000,
    iter := fun i => match i with
      | 0 => .data [0x68, 0x65, 0x6C, 0x6C, 0x6F, 0x0D, 0x0A] 5
      | _ => .noData deadlineUs }

/-- C2 witness: a concrete run and a concrete timestamp round-trip. -/
theorem claim_c2_witness :
    envHello.openPhase = .ok ∧
    recordLines (run envHello) = specLogRecords envHello.iter envHello.startTime deadlineUs 0 0 ∧
    parseHMS (fmtTime 3661000005) = some ((3661000005 / 1000000) % 86400) ∧
    fmtTime 3661000005 = "[01:01:01]".data :=
  ⟨rfl, (claim_c2_one_record_per_line envHello rfl).1,
   (claim_c2_one_record_per_line envHello rfl).2 3661000005, by decide⟩

/-- C4: a line whose bytes are not valid UTF-8 never makes the decode raise:
the permissive decoder is total, each maximal ill-formed subpart becomes
exactly one U+FFFD, the trimmed line is necessarily non-empty and still
contains the placeholder, and the loop prints it as one record and carries
on — the iteration neither ends the loop nor the program. -/
theorem claim_c4_invalid_utf8_replaced (bs : List Nat)
    (hbad : utf8DecodeStrict bs = none) :
    replChar ∈ utf8DecodeReplace bs ∧
    pyRstrip (utf8DecodeReplace bs) ≠ [] ∧
    replChar ∈ pyRstrip (utf8DecodeReplace bs) ∧
    (∀ b rest n, utf8Head b rest = (none, n) →
      utf8DecodeReplace (b :: rest) = replChar :: utf8DecodeReplace (rest.drop (n - 1))) ∧
    (∀ (it : Nat → IterIn) (start fuel i elapsed dt : Nat),
      ¬ (fuel = 0 ∨ deadlineUs ≤ elapsed) → it i = .data bs dt →
      (loopGo it start fuel i elapsed []).evs =
        (fmtTime (start + elapsed + dt) ++ ' ' :: pyRstrip (utf8DecodeReplace bs)) ::
          (loopGo it start (fuel - 1) (i + 1) (elapsed + dt + 1) []).evs ∧
      (loopGo it start fuel i elapsed []).path =
        (loopGo it start (fuel - 1) (i + 1) (elapsed + dt + 1) []).path) := by
  have hmem : replChar ∈ utf8DecodeReplace bs :=
    replChar_mem_of_strict_none bs.length bs le_rfl hbad
  obtain ⟨hmem', hne⟩ := mem_pyRstrip_of_not_space hmem isPySpace_replChar
  refine ⟨hmem, hne, hmem', ?_, ?_⟩
  · intro b rest n hh
    rw [utf8DecodeReplace_cons, hh]
  · intro it start fuel i elapsed dt hg hit
    rw [loopGo_data it start fuel i elapsed [] hg hit]
    simp only [List.headD_nil, List.tail_nil]
    rw [if_neg hne]
    exact ⟨rfl, rfl⟩

/-- C4 witness: the spec's own scenario `b"\xffbad\r\n"`. -/
theorem claim_c4_witness :
    utf8DecodeStrict [0xFF, 0x62, 0x61, 0x64, 0x0D, 0x0A] = none ∧
    replChar ∈ pyRstrip (utf8DecodeReplace [0xFF, 0x62, 0x61, 0x64, 0x0D, 0x0A]) ∧
    pyRstrip (utf8DecodeReplace [0xFF, 0x62, 0x61, 0x64, 0x0D, 0x0A]) =
      replChar :: "bad".data :=
  ⟨by decide,
   (claim_c4_invalid_utf8_replaced [0xFF, 0x62, 0x61, 0x64, 0x0D, 0x0A] (by decide)).2.2.1,
   by decide⟩

/-- C5: a read failure on a single line is caught by the inner handler: it
prints exactly one `Error reading line:` message, the loop goes straight on
to the next iteration with the same exit disposition as the continuation,
and when every iteration is benign (data, idle, or caught read errors) the
loop always ends by its own guard and the program completes with exit code
0. -/
theorem claim_c5_read_failure_caught (env : Env)
    (fuel i elapsed : Nat) (buf : List (List Nat)) (msg : List Char) (dt : Nat)
    (hg : ¬ (fuel = 0 ∨ deadlineUs ≤ elapsed)) (hit : env.iter i = .readErr msg dt) :
    (loopGo env.iter env.startTime fuel i elapsed buf).evs =
      errReadMsg msg ::
        (loopGo env.iter env.startTime (fuel - 1) (i + 1) (elapsed + dt + 1) buf).evs ∧
    (loopGo env.iter env.startTime fuel i elapsed buf).path =
      (loopGo env.iter env.startTime (fuel - 1) (i + 1) (elapsed + dt + 1) buf).path ∧
    ((∀ j, benignIter (env.iter j)) → env.openPhase = .ok →
      (run env).path = .completed ∧ (run env).exitCode = 0) := by
  rw [loopGo_readErr env.iter env.startTime fuel i elapsed buf hg hit]
  refine ⟨rfl, rfl, ?_⟩
  intro hb hok
  obtain ⟨hpath, hcode, -, -⟩ := run_fields_ok env hok
  rw [hpath]
  exact ⟨loopGo_benign_completes env.iter env.startTime hb deadlineUs 0 0 [], hcode⟩

/-- Environment whose first read raises, then silence. -/
def envReadErrOnce : Env :=
  { openPhase := .ok, stale := [], startTime := 0,
    iter := fun i => match i with
      | 0 => .readErr "device reports nothing".data 2
      | _ => .noData deadlineUs }

/-- C5 witness: a concrete caught read failure followed by completion. -/
theorem claim_c5_witness :
    ¬ (deadlineUs = 0 ∨ deadlineUs ≤ 0) ∧
    envReadErrOnce.iter 0 = .readErr "device reports nothing".data 2 ∧
    (loopGo envReadErrOnce.iter envReadErrOnce.startTime deadlineUs 0 0 []).evs =
      errReadMsg "device reports nothing".data ::
        (loopGo envReadErrOnce.iter envReadErrOnce.startTime (deadlineUs - 1) (0 + 1)
          (0 + 2 + 1) []).evs ∧
    (run envReadErrOnce).path = .completed := by
  have hb : ∀ j, benignIter (envReadErrOnce.iter j) := by
    intro j
    cases j with
    | zero => trivial
    | succ n => trivial
  have h := claim_c5_read_failure_caught envReadErrOnce deadlineUs 0 0 [] _ 2 (by decide) rfl
  exact ⟨by decide, rfl, h.1, (h.2.2 hb rfl).1⟩

/-- C7: with no input the loop exits by its strict guard
`time.time() - start_time < 20`: each idle iteration costs the 10 ms sleep
plus overhead, so provided every iteration stays within the 1-second read
timeout the loop's final elapsed time is below 20 s + 1 s; and once
`elapsed` equals the 20-second deadline the loop body never runs again. -/
theorem claim_c7_terminates_by_deadline (env : Env) (hok : env.openPhase = .ok)
    (hin : ∀ j, ∃ dt, env.iter j = .noData dt ∧ sleepUs + dt + 1 ≤ readTimeoutUs) :
    (run env).path = .completed ∧
    (run env).endElapsed < deadlineUs + readTimeoutUs ∧
    deadlineUs = 20 * 1000000 ∧ readTimeoutUs = 1 * 1000000 ∧
    (∀ (fuel i : Nat) (buf : List (List Nat)),
      loopGo env.iter env.startTime fuel i deadlineUs buf =
        { evs := [], path := .completed, emsg := [], endElapsed := deadlineUs }) := by
  have hb : ∀ j, benignIter (env.iter j) := by
    intro j
    obtain ⟨dt, hit, -⟩ := hin j
    rw [hit]
    trivial
  obtain ⟨hpath, -, -, hend⟩ := run_fields_ok env hok
  refine ⟨?_, ?_, by decide, by decide, ?_⟩
  · rw [hpath]
    exact loopGo_benign_completes env.iter env.startTime hb deadlineUs 0 0 []
  · rw [hend]
    exact loopGo_noInput_bound env.iter env.startTime hin deadlineUs 0 0 [] (by decide)
  · intro fuel i buf
    exact loopGo_exit env.iter env.startTime fuel i deadlineUs buf (Or.inr le_rfl)

/-- Environment that never has data available. -/
def envQuiet : Env :=
  { openPhase := .ok, stale := [], startTime := 0, iter := fun _ => .noData 0 }

/-- C7 witness: the silent device completes within the bound. -/
theorem claim_c7_witness :
    (run envQuiet).path = .completed ∧
    (run envQuiet).endElapsed < deadlineUs + readTimeoutUs := by
  have h := claim_c7_terminates_by_deadline envQuiet rfl
    (fun _ => ⟨0, rfl, by decide⟩)
  exact ⟨h.1, h.2.1⟩

end SerialMonitor
